import Mathlib

/-!
Shallow embedding of `src/registers.rs` (x86_64 register models).

Machine integers are modelled as `Nat` with explicit truncation `% 2^64`
where a Rust `u64` operation can overflow.  A Rust method guarded by
`assert!` is modelled as an `Option`-returning function: `none` means the
fatal precondition assertion fired, `some v` is the value produced (for
setters, the new backing value of the register).

Registers are single `u64` backing values (`#[repr(transparent)]` /
`bitflags` structs), so each is embedded as the `Nat` holding its bits.
-/

/-- Truncation to 64 bits, as for a Rust `u64` result. -/
def wrap64 (x : Nat) : Nat := x % 2 ^ 64

/-- Rust `u64::max_value()`. -/
def u64max : Nat := 2 ^ 64 - 1

/-- Bitwise complement on 64 bits, Rust `!x` at type `u64`. -/
def not64 (x : Nat) : Nat := u64max ^^^ x

/-- The `bitflags` method `contains`: `self.bits & other.bits == other.bits`. -/
def containsBits (self other : Nat) : Bool := self &&& other == other

/-- `Cr4::PCID = 1 << 17` (enables process-context identifiers). -/
def Cr4.PCID : Nat := 1 <<< 17

/-- `Cr4` derives `Default`: backing bits are `u64::default() = 0`. -/
def Cr4.default : Nat := 0

/-- `Cr0` derives `Default`: backing bits are `u64::default() = 0`. -/
def Cr0.default : Nat := 0

/-- `Cr3Flags::PAGE_LEVEL_WRITETHROUGH = 1 << 3`. -/
def Cr3Flags.PAGE_LEVEL_WRITETHROUGH : Nat := 1 <<< 3

/-- `Cr3Flags::PAGE_LEVEL_CACHE_DISABLE = 1 << 4`. -/
def Cr3Flags.PAGE_LEVEL_CACHE_DISABLE : Nat := 1 <<< 4

/-- `Cr3Flags::all()`: union of the two known flag bits. -/
def Cr3Flags.all : Nat :=
  Cr3Flags.PAGE_LEVEL_WRITETHROUGH ||| Cr3Flags.PAGE_LEVEL_CACHE_DISABLE

/-- `bitflags` `Cr3Flags::from_bits_truncate`: keep only the known bits. -/
def Cr3Flags.from_bits_truncate (bits : Nat) : Nat := bits &&& Cr3Flags.all

/-- A value is a valid `Cr3Flags` value when it carries only known bits. -/
def Cr3Flags.isValid (f : Nat) : Prop := f &&& Cr3Flags.all = f

/-- `Cr3::MASK = 0b1111_1111_1111`. -/
def Cr3.MASK : Nat := 0b111111111111

/-- `Cr3::flags(self, cr4)`: `assert!(!cr4.contains(Cr4::PCID));
Cr3Flags::from_bits_truncate(self.0)`. -/
def Cr3.flags (cr3 cr4 : Nat) : Option Nat :=
  if !containsBits cr4 Cr4.PCID then
    some (Cr3Flags.from_bits_truncate cr3)
  else none

/-- `Cr3::set_flags(self, cr4, flags)`: `assert!(!cr4.contains(Cr4::PCID));
self.0 &= !MASK; self.0 |= flags.bits() & MASK`.  Returns the new backing value. -/
def Cr3.set_flags (cr3 cr4 f : Nat) : Option Nat :=
  if !containsBits cr4 Cr4.PCID then
    some ((cr3 &&& not64 Cr3.MASK) ||| (f &&& Cr3.MASK))
  else none

/-- `Cr3::pcid(self, cr4)`: `assert!(cr4.contains(Cr4::PCID));
(self.0 & MASK) as u16`. -/
def Cr3.pcid (cr3 cr4 : Nat) : Option Nat :=
  if containsBits cr4 Cr4.PCID then
    some ((cr3 &&& Cr3.MASK) % 2 ^ 16)
  else none

/-- `Cr3::set_pcid(self, cr4, pcid)`: `assert!(cr4.contains(Cr4::PCID));
assert!(pcid as u64 <= MASK); self.0 &= !MASK; self.0 |= pcid as u64`.
Returns the new backing value. -/
def Cr3.set_pcid (cr3 cr4 p : Nat) : Option Nat :=
  if containsBits cr4 Cr4.PCID then
    if p ≤ Cr3.MASK then
      some ((cr3 &&& not64 Cr3.MASK) ||| p)
    else none
  else none

/-- `Cr3::pml4(self)`: `self.0 << 12` (a wrapping-free Rust shift whose result
is truncated to 64 bits). -/
def Cr3.pml4 (cr3 : Nat) : Nat := wrap64 (cr3 <<< 12)

/-- `Cr3::set_pml4(self, pml4)`: `assert!(pml4 <= u64::max_value() >> 12);
self.0 &= MASK; self.0 |= pml4 << 12`.  Returns the new backing value. -/
def Cr3.set_pml4 (cr3 p : Nat) : Option Nat :=
  if p ≤ u64max >>> 12 then
    some ((cr3 &&& Cr3.MASK) ||| wrap64 (p <<< 12))
  else none

/-- `RFlags::iopl(self)`: `(self.bits >> 12) as u8 & 0b11`. -/
def RFlags.iopl (r : Nat) : Nat := ((r >>> 12) % 2 ^ 8) &&& 0b11

/-- `RFlags::set_iopl(self, level)`: `assert!(level <= 0b11);
self.bits &= !(0b11 << 12); self.bits |= (level as u64) << 12`.
Returns the new backing value. -/
def RFlags.set_iopl (r level : Nat) : Option Nat :=
  if level ≤ 0b11 then
    some ((r &&& not64 (0b11 <<< 12)) ||| (level <<< 12))
  else none

/-- `impl Default for RFlags`: `bits: 1 << 1`. -/
def RFlags.default : Nat := 1 <<< 1

/-! ### Generic bit-level helper lemmas -/

/-- Bits at or beyond the width bound of a value are clear. -/
lemma testBit_eq_false_of_lt_of_le {x k j : Nat} (hx : x < 2 ^ k) (hkj : k ≤ j) :
    x.testBit j = false :=
  Nat.testBit_lt_two_pow (lt_of_lt_of_le hx (Nat.pow_le_pow_right (by norm_num) hkj))

/-- Bit view of the 64-bit complement. -/
lemma testBit_not64 (x i : Nat) :
    (not64 x).testBit i = ((decide (i < 64)) ^^ x.testBit i) := by
  simp only [not64, u64max, Nat.testBit_xor, Nat.testBit_two_pow_sub_one]

/-- Bit view of the low-12-bit mask 4095. -/
lemma testBit_4095 (i : Nat) : Nat.testBit 4095 i = decide (i < 12) := by
  have h : (4095 : Nat) = 2 ^ 12 - 1 := by norm_num
  rw [h, Nat.testBit_two_pow_sub_one]

/-- Bit view of 3 = 0b11. -/
lemma testBit_3 (i : Nat) : Nat.testBit 3 i = decide (i < 2) := by
  have h : (3 : Nat) = 2 ^ 2 - 1 := by norm_num
  rw [h, Nat.testBit_two_pow_sub_one]

/-- Bit view of 24 = 0b11000, the union of the two `Cr3Flags` bits. -/
lemma testBit_24 (i : Nat) : Nat.testBit 24 i = (decide (3 ≤ i) && decide (i < 5)) := by
  have h : (24 : Nat) = 3 <<< 3 := by norm_num [Nat.shiftLeft_eq]
  rw [h, Nat.testBit_shiftLeft, testBit_3, Bool.eq_iff_iff]
  simp only [Bool.and_eq_true, decide_eq_true_eq, ge_iff_le]
  omega

/-- Bit view of 12288 = 0b11 << 12, the IOPL field mask. -/
lemma testBit_12288 (i : Nat) : Nat.testBit 12288 i = (decide (12 ≤ i) && decide (i < 14)) := by
  have h : (12288 : Nat) = 3 <<< 12 := by norm_num [Nat.shiftLeft_eq]
  rw [h, Nat.testBit_shiftLeft, testBit_3, Bool.eq_iff_iff]
  simp only [Bool.and_eq_true, decide_eq_true_eq, ge_iff_le]
  omega

/-- Bit view of `Cr3::MASK`. -/
lemma testBit_MASK (i : Nat) : Nat.testBit Cr3.MASK i = decide (i < 12) := by
  rw [show Cr3.MASK = 4095 from rfl]; exact testBit_4095 i

/-- Bit view of the complement of `Cr3::MASK`. -/
lemma testBit_not64MASK (i : Nat) :
    (not64 Cr3.MASK).testBit i = ((decide (i < 64)) ^^ decide (i < 12)) := by
  rw [testBit_not64, testBit_MASK]

/-- Pulling a value shifted past a small head back out with a right shift. -/
lemma lor_shift_shiftRight (x y k : Nat) (hx : x < 2 ^ k) :
    (x ||| y <<< k) >>> k = y := by
  apply Nat.eq_of_testBit_eq
  intro i
  have hxb : x.testBit (k + i) = false :=
    testBit_eq_false_of_lt_of_le hx (Nat.le_add_right _ _)
  simp [Nat.testBit_shiftRight, hxb, Nat.le_add_right]

/-- The low `k` bits of `x ||| y <<< k` are those of `x`. -/
lemma lor_shift_mod (x y k : Nat) (hx : x < 2 ^ k) :
    (x ||| y <<< k) % 2 ^ k = x := by
  apply Nat.eq_of_testBit_eq
  intro i
  rcases Nat.lt_or_ge i k with h | h
  · simp [h, Nat.not_le.mpr h]
  · have hxb : x.testBit i = false := testBit_eq_false_of_lt_of_le hx h
    simp [hxb, Nat.not_lt.mpr h]

/-- Masking with `Cr3::MASK` after clearing the low 12 bits and or-ing in a
12-bit value recovers that value. -/
lemma land_or_low (x p : Nat) (hp : p < 2 ^ 12) :
    ((x &&& not64 Cr3.MASK) ||| p) &&& Cr3.MASK = p := by
  apply Nat.eq_of_testBit_eq
  intro i
  rcases Nat.lt_or_ge i 12 with h | h
  · have h64 : i < 64 := by omega
    simp [testBit_MASK, testBit_not64MASK, h, h64]
  · have hpb : p.testBit i = false := testBit_eq_false_of_lt_of_le hp h
    simp [testBit_MASK, testBit_not64MASK, Nat.not_lt.mpr h, hpb]

/-- Clearing the low 12 bits and or-ing in a 12-bit value leaves bits
12 to 63 of a `u64` unchanged. -/
lemma high_preserved {x low : Nat} (hx : x < 2 ^ 64) (hlow : low < 2 ^ 12) :
    ((x &&& not64 Cr3.MASK) ||| low) >>> 12 = x >>> 12 := by
  apply Nat.eq_of_testBit_eq
  intro i
  have hlb : low.testBit (12 + i) = false :=
    testBit_eq_false_of_lt_of_le hlow (Nat.le_add_right _ _)
  rcases Nat.lt_or_ge (12 + i) 64 with h | h
  · have h12 : ¬(12 + i < 12) := by omega
    simp [Nat.testBit_shiftRight, testBit_not64MASK, hlb, h, h12]
  · have hxb : x.testBit (12 + i) = false := testBit_eq_false_of_lt_of_le hx h
    simp [Nat.testBit_shiftRight, testBit_not64MASK, hlb, hxb]

/-! ### Claim theorems -/

/-- C1: the page-table-base round trip fails on the code.  Evaluating the
source functions at the failing input: on a `Cr3` with backing value 0,
`set_pml4(4096)` passes its assertion (4096 is page-aligned and far below the
architectural width bound) and stores backing value 16777216, but `pml4()`
on that backing value returns 68719476736, not the address 4096 that was set:
the getter shifts the backing value left by 12 instead of extracting bits
12 to 63. -/
theorem C1_pml4_roundtrip_fails_eval :
    Cr3.set_pml4 0 4096 = some 16777216 ∧
    Cr3.pml4 16777216 = 68719476736 ∧ (68719476736 : Nat) ≠ 4096 := by
  refine ⟨by decide, ?_, by decide⟩
  decide

/-- C2 counterexample: the claim as stated predicts that after
`set_pml4(4096)` on a zero `Cr3`, bits 12 to 63 of the backing value hold the
address right-shifted by 12, namely 1.  The code instead stores the address
itself there: the new backing value is 16777216, whose bits 12 to 63 read
back as 4096, not 1. -/
theorem C2_claim_counterexample :
    Cr3.set_pml4 0 4096 = some 16777216 ∧
    (16777216 : Nat) >>> 12 = 4096 ∧ (4096 : Nat) >>> 12 = 1 ∧ (4096 : Nat) ≠ 1 := by
  refine ⟨by decide, by decide, by decide, by decide⟩

/-- C2 (amended): for every `Cr3` value and every address accepted by
`set_pml4`, the call stores the address itself (not the address right-shifted
by 12) into bits 12 to 63 of the backing value, and leaves bits 0 to 11 of
the backing value unchanged. -/
theorem C2_set_pml4_stores_address (cr3 a : Nat) (ha : a ≤ u64max >>> 12) :
    ∃ b, Cr3.set_pml4 cr3 a = some b ∧ b >>> 12 = a ∧ b % 2 ^ 12 = cr3 % 2 ^ 12 := by
  have hbound : u64max >>> 12 = 2 ^ 52 - 1 := by decide
  have ha2 : a < 2 ^ 52 := by rw [hbound] at ha; omega
  have hw : wrap64 (a <<< 12) = a <<< 12 := by
    apply Nat.mod_eq_of_lt
    rw [Nat.shiftLeft_eq]
    omega
  have hlow : cr3 &&& Cr3.MASK = cr3 % 2 ^ 12 := by
    rw [show Cr3.MASK = 2 ^ 12 - 1 from rfl, Nat.and_pow_two_sub_one_eq_mod]
  have hm : cr3 % 2 ^ 12 < 2 ^ 12 := Nat.mod_lt _ (by norm_num)
  refine ⟨(cr3 &&& Cr3.MASK) ||| wrap64 (a <<< 12), ?_, ?_, ?_⟩
  · simp [Cr3.set_pml4, ha]
  · rw [hw, hlow, lor_shift_shiftRight _ _ _ hm]
  · rw [hw, hlow, lor_shift_mod _ _ _ hm]

/-- C2 amended witness: instantiation at backing value 5 and address 4096. -/
theorem C2_set_pml4_stores_address_witness :
    ∃ b, Cr3.set_pml4 5 4096 = some b ∧ b >>> 12 = 4096 ∧ b % 2 ^ 12 = 5 % 2 ^ 12 :=
  C2_set_pml4_stores_address 5 4096 (by decide)

/-- C3: calling `flags` when the `Cr4` PCID-enable bit is set, or `pcid` when
it is cleared, always hits the fatal `assert!` (modelled as `none`) and never
returns a value. -/
theorem C3_mode_asserts (cr3 cr4 : Nat) :
    (containsBits cr4 Cr4.PCID = true → Cr3.flags cr3 cr4 = none) ∧
    (containsBits cr4 Cr4.PCID = false → Cr3.pcid cr3 cr4 = none) := by
  constructor
  · intro h; simp [Cr3.flags, h]
  · intro h; simp [Cr3.pcid, h]

/-- C3 witness: instantiation at `cr4 = PCID` (bit 17 set) and `cr4 = 0`. -/
theorem C3_mode_asserts_witness :
    Cr3.flags 0 131072 = none ∧ Cr3.pcid 0 0 = none :=
  ⟨(C3_mode_asserts 0 131072).1 (by decide), (C3_mode_asserts 0 0).2 (by decide)⟩

/-- C4 counterexample: the claim as stated predicts that `set_pml4` with the
unaligned address 4097 (low 12 bits 0b000000000001) triggers the fatal
assertion; the code only checks the width bound, accepts 4097 and returns a
new backing value. -/
theorem C4_claim_counterexample :
    (4097 : Nat) % 2 ^ 12 = 1 ∧ Cr3.set_pml4 0 4097 = some 16781312 := by
  refine ⟨by decide, by decide⟩

/-- C4 (amended): `set_pml4` triggers the fatal precondition assertion exactly
when the address exceeds `u64::max_value() >> 12`; any address within that
bound, page-aligned or not, is accepted. -/
theorem C4_set_pml4_assert_characterization (cr3 a : Nat) :
    (a ≤ u64max >>> 12 → ∃ b, Cr3.set_pml4 cr3 a = some b) ∧
    (u64max >>> 12 < a → Cr3.set_pml4 cr3 a = none) := by
  constructor
  · intro h
    exact ⟨(cr3 &&& Cr3.MASK) ||| wrap64 (a <<< 12), by simp [Cr3.set_pml4, h]⟩
  · intro h
    have hn : ¬(a ≤ u64max >>> 12) := Nat.not_le.mpr h
    simp [Cr3.set_pml4, hn]

/-- C4 amended witness: the unaligned in-range address 4097 is accepted, the
out-of-range address 2^52 asserts. -/
theorem C4_set_pml4_assert_characterization_witness :
    (∃ b, Cr3.set_pml4 0 4097 = some b) ∧
    Cr3.set_pml4 0 4503599627370496 = none :=
  ⟨(C4_set_pml4_assert_characterization 0 4097).1 (by decide),
   (C4_set_pml4_assert_characterization 0 4503599627370496).2 (by decide)⟩

/-- C5: with the `Cr4` PCID-enable bit set and a PCID value at most 4095,
`set_pcid` succeeds and a subsequent `pcid` read with the same `Cr4` returns
exactly the value that was set. -/
theorem C5_pcid_roundtrip (cr3 cr4 p : Nat)
    (hmode : containsBits cr4 Cr4.PCID = true) (hp : p ≤ 4095) :
    ∃ b, Cr3.set_pcid cr3 cr4 p = some b ∧ Cr3.pcid b cr4 = some p := by
  have hpM : p ≤ Cr3.MASK := by
    rw [show Cr3.MASK = 4095 from rfl]; exact hp
  refine ⟨(cr3 &&& not64 Cr3.MASK) ||| p, ?_, ?_⟩
  · simp [Cr3.set_pcid, hmode, hpM]
  · have h1 : ((cr3 &&& not64 Cr3.MASK) ||| p) &&& Cr3.MASK = p :=
      land_or_low _ _ (by omega)
    simp [Cr3.pcid, hmode, h1]
    omega

/-- C5 witness: instantiation at backing value 7, `cr4 = PCID` and PCID 4095. -/
theorem C5_pcid_roundtrip_witness :
    ∃ b, Cr3.set_pcid 7 131072 4095 = some b ∧ Cr3.pcid b 131072 = some 4095 :=
  C5_pcid_roundtrip 7 131072 4095 (by decide) (by decide)

/-- C6: with the `Cr4` PCID-enable bit cleared and a valid `Cr3Flags` value
`f` (only the two known flag bits), `set_flags` succeeds, a subsequent `flags`
read with the same `Cr4` returns exactly `f`, and bits 0 to 2 of the new
backing value are 0. -/
theorem C6_flags_roundtrip (cr3 cr4 f : Nat)
    (hmode : containsBits cr4 Cr4.PCID = false) (hf : Cr3Flags.isValid f) :
    ∃ b, Cr3.set_flags cr3 cr4 f = some b ∧ Cr3.flags b cr4 = some f ∧
      b % 2 ^ 3 = 0 := by
  have hall : Cr3Flags.all = 24 := by decide
  have hf24 : f &&& 24 = f := by
    have h0 : f &&& Cr3Flags.all = f := hf
    rwa [hall] at h0
  have hfle : f ≤ 24 := by
    conv_lhs => rw [← hf24]
    exact Nat.and_le_right
  have hfM : f &&& Cr3.MASK = f := by
    rw [show Cr3.MASK = 2 ^ 12 - 1 from rfl, Nat.and_pow_two_sub_one_eq_mod]
    exact Nat.mod_eq_of_lt (by omega)
  have hsub : ∀ j, f.testBit j = (f.testBit j && Nat.testBit 24 j) := by
    intro j
    conv_lhs => rw [← hf24]
    exact Nat.testBit_and f 24 j
  refine ⟨(cr3 &&& not64 Cr3.MASK) ||| (f &&& Cr3.MASK), ?_, ?_, ?_⟩
  · simp [Cr3.set_flags, hmode]
  · have hb : ((cr3 &&& not64 Cr3.MASK) ||| (f &&& Cr3.MASK)) &&& Cr3Flags.all = f := by
      rw [hfM, hall]
      apply Nat.eq_of_testBit_eq
      intro i
      rcases Nat.lt_or_ge i 3 with h3 | h3
      · have h24 : Nat.testBit 24 i = false := by
          rw [testBit_24]; simp; omega
        have hfb : f.testBit i = false := by rw [hsub i, h24, Bool.and_false]
        simp [h24, hfb]
      · rcases Nat.lt_or_ge i 5 with h5 | h5
        · have h24 : Nat.testBit 24 i = true := by
            rw [testBit_24]; simp [h3, h5]
          have hn : (not64 Cr3.MASK).testBit i = false := by
            rw [testBit_not64MASK]
            simp [show i < 64 by omega, show i < 12 by omega]
          simp [h24, hn]
        · have h24 : Nat.testBit 24 i = false := by
            rw [testBit_24]; simp; omega
          have hfb : f.testBit i = false := by rw [hsub i, h24, Bool.and_false]
          simp [h24, hfb]
    simp [Cr3.flags, hmode, Cr3Flags.from_bits_truncate, hb]
  · rw [hfM]
    apply Nat.eq_of_testBit_eq
    intro i
    rw [Nat.testBit_mod_two_pow]
    rcases Nat.lt_or_ge i 3 with h3 | h3
    · have h24 : Nat.testBit 24 i = false := by
        rw [testBit_24]; simp; omega
      have hfb : f.testBit i = false := by rw [hsub i, h24, Bool.and_false]
      have h64 : i < 64 := by omega
      have h12 : i < 12 := by omega
      simp [testBit_not64MASK, hfb, h64, h12]
    · simp [Nat.not_lt.mpr h3]

/-- C6 witness: instantiation at backing value 5, `cr4 = 0` and both flag
bits set (f = 24). -/
theorem C6_flags_roundtrip_witness :
    ∃ b, Cr3.set_flags 5 0 24 = some b ∧ Cr3.flags b 0 = some 24 ∧
      b % 2 ^ 3 = 0 :=
  C6_flags_roundtrip 5 0 24 (by decide)
    (show (24 : Nat) &&& Cr3Flags.all = 24 by decide)

/-- C7: for a `u64` RFlags backing value and a level at most 3, `set_iopl`
succeeds, a subsequent `iopl` read returns the level, and every bit outside
the IOPL field is unchanged: bits 0 to 11 (the value modulo 2^12) and bits
14 and up (the value divided by 2^14) are those of the original value. -/
theorem C7_iopl_roundtrip (r level : Nat) (hr : r < 2 ^ 64) (hl : level ≤ 3) :
    ∃ b, RFlags.set_iopl r level = some b ∧ RFlags.iopl b = level ∧
      b % 2 ^ 12 = r % 2 ^ 12 ∧ b / 2 ^ 14 = r / 2 ^ 14 := by
  refine ⟨(r &&& not64 (0b11 <<< 12)) ||| (level <<< 12), ?_, ?_, ?_, ?_⟩
  · simp [RFlags.set_iopl, hl]
  · apply Nat.eq_of_testBit_eq
    intro i
    unfold RFlags.iopl
    rw [Nat.testBit_and, Nat.testBit_mod_two_pow, Nat.testBit_shiftRight, testBit_3]
    rcases Nat.lt_or_ge i 2 with h2 | h2
    · have e1 : 12 + i - 12 = i := by omega
      simp [Nat.testBit_or, Nat.testBit_and, testBit_not64, testBit_12288,
        Nat.testBit_shiftLeft, e1, h2, show i < 8 by omega,
        show (12 : Nat) ≤ 12 + i by omega, show 12 + i < 14 by omega,
        show 12 + i < 64 by omega]
    · have hlv : level.testBit i = false :=
        testBit_eq_false_of_lt_of_le (show level < 2 ^ 2 by omega) h2
      simp [Nat.not_lt.mpr h2, hlv]
  · apply Nat.eq_of_testBit_eq
    intro i
    rw [Nat.testBit_mod_two_pow, Nat.testBit_mod_two_pow]
    rcases Nat.lt_or_ge i 12 with h | h
    · simp [Nat.testBit_or, Nat.testBit_and, testBit_not64, testBit_12288,
        Nat.testBit_shiftLeft, h, show i < 64 by omega, show ¬(12 ≤ i) by omega]
    · simp [Nat.not_lt.mpr h]
  · rw [← Nat.shiftRight_eq_div_pow, ← Nat.shiftRight_eq_div_pow]
    apply Nat.eq_of_testBit_eq
    intro i
    rw [Nat.testBit_shiftRight, Nat.testBit_shiftRight]
    have hlv : level.testBit (14 + i - 12) = false :=
      testBit_eq_false_of_lt_of_le (show level < 2 ^ 2 by omega) (by omega)
    rcases Nat.lt_or_ge (14 + i) 64 with h | h
    · simp [Nat.testBit_or, Nat.testBit_and, testBit_not64, testBit_12288,
        Nat.testBit_shiftLeft, hlv, h, show ¬(14 + i < 14) by omega,
        show (12 : Nat) ≤ 14 + i by omega]
    · have hrb : r.testBit (14 + i) = false := testBit_eq_false_of_lt_of_le hr h
      simp [Nat.testBit_or, Nat.testBit_and, testBit_not64, testBit_12288,
        Nat.testBit_shiftLeft, hlv, hrb, show ¬(14 + i < 64) by omega,
        show (12 : Nat) ≤ 14 + i by omega, show ¬(14 + i < 14) by omega]

/-- C7 witness: instantiation at backing value 5 and level 3. -/
theorem C7_iopl_roundtrip_witness :
    ∃ b, RFlags.set_iopl 5 3 = some b ∧ RFlags.iopl b = 3 ∧
      b % 2 ^ 12 = 5 % 2 ^ 12 ∧ b / 2 ^ 14 = 5 / 2 ^ 14 :=
  C7_iopl_roundtrip 5 3 (by decide) (by decide)

/-- C8: `set_iopl` with any level above 3 hits the fatal assertion; with the
PCID-enable bit set, `set_pcid` with 4096 hits the fatal assertion while
`set_pcid` with 4095 succeeds. -/
theorem C8_assert_bounds (r level cr3 cr4 : Nat) :
    (3 < level → RFlags.set_iopl r level = none) ∧
    (containsBits cr4 Cr4.PCID = true →
      Cr3.set_pcid cr3 cr4 4096 = none ∧
      ∃ b, Cr3.set_pcid cr3 cr4 4095 = some b) := by
  constructor
  · intro h
    have hn : ¬(level ≤ 0b11) := by omega
    simp [RFlags.set_iopl, hn]
  · intro h
    refine ⟨?_, ⟨(cr3 &&& not64 Cr3.MASK) ||| 4095, ?_⟩⟩
    · simp [Cr3.set_pcid, h, Cr3.MASK]
    · simp [Cr3.set_pcid, h, Cr3.MASK]

/-- C8 witness: instantiation at level 4 and at `cr4 = PCID` with PCID values
4096 and 4095. -/
theorem C8_assert_bounds_witness :
    RFlags.set_iopl 0 4 = none ∧
    (Cr3.set_pcid 0 131072 4096 = none ∧ ∃ b, Cr3.set_pcid 0 131072 4095 = some b) :=
  ⟨(C8_assert_bounds 0 4 0 131072).1 (by decide),
   (C8_assert_bounds 0 4 0 131072).2 (by decide)⟩

/-- C9: default construction: `RFlags::default()` has exactly bit 1 set
(backing bits 0b10), `Cr0::default()` and `Cr4::default()` have backing
bits 0. -/
theorem C9_default_values :
    RFlags.default = 0b10 ∧ Cr0.default = 0 ∧ Cr4.default = 0 :=
  ⟨by decide, rfl, rfl⟩

/-- C10: whenever `set_flags` or `set_pcid` passes its assertions and
returns a new backing value, bits 12 to 63 (the page-table base field) of
the backing value are unchanged. -/
theorem C10_low_setters_preserve_base (cr3 cr4 f p : Nat) (hc : cr3 < 2 ^ 64) :
    (∀ b, Cr3.set_flags cr3 cr4 f = some b → b >>> 12 = cr3 >>> 12) ∧
    (∀ b, Cr3.set_pcid cr3 cr4 p = some b → b >>> 12 = cr3 >>> 12) := by
  constructor
  · intro b h
    unfold Cr3.set_flags at h
    split at h
    · have hb := Option.some.inj h
      rw [← hb]
      apply high_preserved hc
      have hle : f &&& Cr3.MASK ≤ 4095 := by
        rw [show Cr3.MASK = 4095 from rfl]
        exact Nat.and_le_right
      omega
    · simp at h
  · intro b h
    unfold Cr3.set_pcid at h
    split at h
    · split at h
      · rename_i hple
        have hb := Option.some.inj h
        rw [← hb]
        apply high_preserved hc
        rw [show Cr3.MASK = 4095 from rfl] at hple
        omega
      · simp at h
    · simp at h

/-- C10 witness: instantiations, for `set_flags` at backing value 4096 with
both flag bits, for `set_pcid` at backing value 4096 with PCID 2. -/
theorem C10_low_setters_preserve_base_witness :
    (4120 : Nat) >>> 12 = (4096 : Nat) >>> 12 ∧
    (4098 : Nat) >>> 12 = (4096 : Nat) >>> 12 :=
  ⟨(C10_low_setters_preserve_base 4096 0 24 2 (by decide)).1 4120 (by decide),
   (C10_low_setters_preserve_base 4096 131072 24 2 (by decide)).2 4098 (by decide)⟩
